import Mathlib

/-!
Verification of the persistence layer of the `epu2pl` repository.

Part 1 embeds `series_store.py` (the per-series SQLite store): the `terms`
table, the `change_log` table, and the operation
`SeriesStore.add_or_update_term`.  SQLite transactions are embedded as
`Except`-valued state transformers: every statement of one transaction
mutates a working copy of the state, and an exception anywhere before
`conn.commit()` returns `.error` without producing a new state (the
`with`-block of `sqlite3.Connection` rolls the transaction back).  The
fallibility of the underlying engine on the `change_log` INSERT is made
explicit through the `logOk` oracle argument of `logChange`.
-/

namespace SeriesStoreModel

/-- Row of the `terms` table of `series_store.py` (`_init_schema`).
Float columns (`confidence REAL`) are embedded as `Rat`, nullable integer
columns as `Option Nat`. -/
structure Term where
  id : Nat
  sourceTerm : String
  targetTerm : String
  status : String
  confidence : Rat
  origin : String
  projectId : Option Nat
  sourceExample : String
  targetExample : String
  notes : String
  createdAt : Nat
  updatedAt : Nat
  approvedAt : Option Nat
deriving Repr, DecidableEq

/-- Row of the `change_log` table of `series_store.py`. -/
structure LogEntry where
  id : Nat
  entityType : String
  entityKey : String
  action : String
  payload : String
  createdAt : Nat
deriving Repr, DecidableEq

/-- State of one per-series SQLite database (`series.db`): the two tables
the claims are about, plus the AUTOINCREMENT counters. -/
structure SeriesDB where
  terms : List Term
  changeLog : List LogEntry
  nextTermId : Nat
  nextLogId : Nat
deriving Repr, DecidableEq

/-- ASCII whitespace test used by the embedding of Python's `str.strip()`. -/
def isSpaceChar (c : Char) : Bool :=
  c == ' ' || c == '\t' || c == '\n' || c == '\r'

/-- Structural embedding of Python's `str.strip()` (leading and trailing
whitespace removed). -/
def pyStrip (s : String) : String :=
  ⟨((s.data.dropWhile isSpaceChar).reverse.dropWhile isSpaceChar).reverse⟩

/-- Embeds `SeriesStore._log_change`: one INSERT into `change_log`, executed
inside the caller's open transaction.  `logOk` is the oracle for whether the
underlying engine accepts the INSERT; the Python code wraps the statement in
no handler, so on failure the exception propagates (`.error`). -/
def logChange (logOk : Bool) (now : Nat) (db : SeriesDB)
    (entityType entityKey action payload : String) : Except String SeriesDB :=
  if logOk then
    .ok { db with
      changeLog := db.changeLog ++
        [{ id := db.nextLogId
           entityType := pyStrip entityType
           entityKey := pyStrip entityKey
           action := pyStrip action
           payload := payload
           createdAt := now }]
      nextLogId := db.nextLogId + 1 }
  else
    .error "change_log insert failed"

/-- Lookup embedding the SELECT
`SELECT id, status, confidence FROM terms WHERE source_term = ? AND target_term = ?`. -/
def findTerm (src dst : String) (ts : List Term) : Option Term :=
  ts.find? (fun t => t.sourceTerm == src && t.targetTerm == dst)

/-- Embeds the SQL UPDATE-by-id of `add_or_update_term` (the row found by
`findTerm` is rewritten in place). -/
def updateById (i : Nat) (t : Term) (l : List Term) : List Term :=
  l.map (fun x => if x.id = i then t else x)

/-- Embeds `SeriesStore.add_or_update_term` (series_store.py lines 302-418).
Returns `(db, term_id, created)` on commit.  The `logOk` oracle stands for
the success of the `change_log` INSERT issued by `_log_change`; since that
INSERT runs in the same transaction as the primary INSERT/UPDATE and is not
wrapped in any handler, its failure aborts the whole call before
`conn.commit()`. -/
def addOrUpdateTerm (logOk : Bool) (now : Nat) (db : SeriesDB)
    (sourceTerm targetTerm status : String) (confidence : Rat)
    (origin : String) (projectId : Option Nat)
    (sourceExample targetExample notes : String) :
    Except String (SeriesDB × Nat × Bool) :=
  let src := pyStrip sourceTerm
  let dst := pyStrip targetTerm
  if src = "" ∨ dst = "" then
    .error "source_term and target_term are required"
  else
    match findTerm src dst db.terms with
    | none =>
        let approvedAt := if status = "approved" then some now else none
        let t : Term :=
          { id := db.nextTermId
            sourceTerm := src
            targetTerm := dst
            status := status
            confidence := confidence
            origin := origin
            projectId := projectId
            sourceExample := sourceExample
            targetExample := targetExample
            notes := notes
            createdAt := now
            updatedAt := now
            approvedAt := approvedAt }
        let db1 := { db with terms := db.terms ++ [t], nextTermId := db.nextTermId + 1 }
        (logChange logOk now db1 "term" (src ++ " => " ++ dst) "create" "").map
          (fun db2 => (db2, t.id, true))
    | some row =>
        let currentStatus := if row.status = "" then "proposed" else row.status
        let finalStatus :=
          if status = "approved" then "approved"
          else if currentStatus ≠ "approved" ∧ currentStatus ≠ "rejected" then status
          else currentStatus
        let approvedAt := if finalStatus = "approved" then some now else none
        let finalConf := max row.confidence confidence
        let row' : Term :=
          { row with
            status := finalStatus
            confidence := finalConf
            origin := if origin ≠ "" then origin else row.origin
            projectId := projectId.orElse (fun _ => row.projectId)
            sourceExample := if sourceExample ≠ "" then sourceExample else row.sourceExample
            targetExample := if targetExample ≠ "" then targetExample else row.targetExample
            notes := if notes ≠ "" then notes else row.notes
            updatedAt := now
            approvedAt := approvedAt.orElse (fun _ => row.approvedAt) }
        let db1 := { db with terms := updateById row.id row' db.terms }
        (logChange logOk now db1 "term" (src ++ " => " ++ dst) "update" "").map
          (fun db2 => (db2, row.id, false))

/-- Empty series database, as created by `_init_schema` on a fresh file. -/
def emptyDB : SeriesDB :=
  { terms := [], changeLog := [], nextTermId := 1, nextLogId := 1 }

end SeriesStoreModel

/-!
Part 2 models `ProjectDB` (`project_db.py`).  That module is not part of the
source tree here — only its tests (`tests/test_repository_layer.py`,
`tests/test_series_support.py`, `tests/test_security_reliability_hardening.py`)
and its callers (`db_maintenance.py`, `studio_repository.py`) are — so the
definitions below are modelled from the spec (sections 3, 4.2, 4.3, 4.5, 4.6
of spec.md) and pinned by the behaviour the tests assert.
-/

namespace ProjectDBModel

/-- Modelled from the spec: a migration-history record
`(from_schema, to_schema, backup_dir, applied_at)`; `backup_dir` is an
identifier of a backup directory, `none` for reversal records. -/
structure MigRecord where
  fromSchema : Nat
  toSchema : Nat
  backupDir : Option Nat
  appliedAt : Nat
deriving Repr, DecidableEq

/-- Modelled from the spec: a `projects` row, restricted to the fields the
claims touch.  `volume_no` is a nullable float column, embedded as
`Option Rat`. -/
structure Project where
  id : Nat
  name : String
  seriesId : Option Nat
  volumeNo : Option Rat
  status : String
  updatedAt : Nat
deriving DecidableEq

/-- Modelled from the spec: a `runs` row (run history). -/
structure PRun where
  id : Nat
  projectId : Nat
  step : String
  status : String
  startedAt : Nat
  finishedAt : Option Nat
  message : String
deriving Repr, DecidableEq

/-- Modelled from the spec: a `series` row, restricted to the fields the
claims touch. -/
structure Series where
  id : Nat
  name : String
deriving Repr, DecidableEq

/-- Modelled from the spec: the whole `ProjectDB` store state.  `meta` is the
key-value table (version values are numeric strings in SQLite; they are
embedded as naturals), `history` the migration-history table with the newest
record last, `backups` the on-disk backup directories (id paired with the
snapshotted store content), `content` an abstract rendering of the store
file's data payload, and `now` the clock read by the operations. -/
structure DBState where
  meta : List (String × Nat)
  history : List MigRecord
  backups : List (Nat × Nat)
  content : Nat
  projects : List Project
  runs : List PRun
  series : List Series
  nextBackupId : Nat
  now : Nat

/-- Canonical schema-version meta key (the drift test seeds this key as
`schema_version`). -/
def canonKey : String := "schema_version"

/-- Modelled from the spec: the legacy alias meta key (`SCHEMA_META_ALIAS_KEY`
in the tests; its concrete value is unknown, only that it differs from the
canonical key). -/
def aliasKey : String := "schema_version_legacy"

/-- Lookup in the meta key-value table (`_meta_get`). -/
def metaGet (k : String) : List (String × Nat) → Option Nat
  | [] => none
  | e :: rest => if e.1 = k then some e.2 else metaGet k rest

/-- Upsert into the meta key-value table (`_meta_set`,
`INSERT ... ON CONFLICT(key) DO UPDATE`). -/
def metaSet (k : String) (v : Nat) : List (String × Nat) → List (String × Nat)
  | [] => [(k, v)]
  | e :: rest => if e.1 = k then (k, v) :: rest else e :: metaSet k v rest

/-- Modelled from the spec: resolve the current schema version by reading the
canonical meta key, falling back to the legacy alias, then to the initial
version `0` (a brand-new store). -/
def versionOf (st : DBState) : Nat :=
  match metaGet canonKey st.meta with
  | some v => v
  | none => (metaGet aliasKey st.meta).getD 0

/-- Modelled from the spec: write the schema version to both the canonical
meta key and its legacy alias (always write both, kept in lockstep). -/
def setVersion (v : Nat) (st : DBState) : DBState :=
  { st with meta := metaSet aliasKey v (metaSet canonKey v st.meta) }

theorem metaGet_metaSet_self (k : String) (v : Nat) (m : List (String × Nat)) :
    metaGet k (metaSet k v m) = some v := by
  induction m with
  | nil => simp [metaSet, metaGet]
  | cons e rest ih =>
      by_cases h : e.1 = k
      · simp [metaSet, metaGet, h]
      · simp [metaSet, metaGet, h, ih]

theorem metaGet_metaSet_ne (k k' : String) (v : Nat) (m : List (String × Nat))
    (h : k ≠ k') : metaGet k' (metaSet k v m) = metaGet k' m := by
  induction m with
  | nil => simp [metaSet, metaGet, h]
  | cons e rest ih =>
      by_cases he : e.1 = k
      · simp [metaSet, metaGet, he, h]
      · by_cases he' : e.1 = k'
        · simp [metaSet, metaGet, he, he', Ne.symm h]
        · simp [metaSet, metaGet, he, he', ih]

theorem canonKey_ne_aliasKey : canonKey ≠ aliasKey := by decide

theorem metaGet_canon_setVersion (v : Nat) (st : DBState) :
    metaGet canonKey (setVersion v st).meta = some v := by
  unfold setVersion
  rw [metaGet_metaSet_ne aliasKey canonKey v _ (Ne.symm canonKey_ne_aliasKey)]
  exact metaGet_metaSet_self _ _ _

theorem metaGet_alias_setVersion (v : Nat) (st : DBState) :
    metaGet aliasKey (setVersion v st).meta = some v := by
  unfold setVersion
  exact metaGet_metaSet_self _ _ _

theorem versionOf_setVersion (v : Nat) (st : DBState) :
    versionOf (setVersion v st) = v := by
  unfold versionOf
  rw [metaGet_canon_setVersion]

end ProjectDBModel

namespace ProjectDBModel

/-- Modelled from the spec: the summary of a full migration run
(first `from`, last `to`, backup directory). -/
structure Summary where
  fromSchema : Nat
  toSchema : Nat
  backupDir : Option Nat
deriving Repr, DecidableEq

/-- Modelled from the spec: `snapshot` of the Backup and Rollback Manager —
copies the store content into a freshly named backup directory, never
overwriting an existing one (fresh id counter). -/
def snapshot (st : DBState) : Nat × DBState :=
  (st.nextBackupId,
    { st with
      backups := st.backups ++ [(st.nextBackupId, st.content)]
      nextBackupId := st.nextBackupId + 1 })

/-- Modelled from the spec: one migration step from version `cur` to
`cur + 1`: snapshot, apply the step's schema changes (the abstract `steps`
transformation on the store content), update the meta version and its alias,
and append a migration-history record `(cur, cur + 1, backup_dir, now)`. -/
def applyStep (steps : Nat → Nat → Nat) (cur : Nat) (st : DBState) : DBState :=
  let (bid, st1) := snapshot st
  let st2 := { st1 with content := steps (cur + 1) st1.content }
  let st3 := setVersion (cur + 1) st2
  { st3 with
    history := st3.history ++
      [{ fromSchema := cur, toSchema := cur + 1, backupDir := some bid, appliedAt := st3.now }] }

/-- Modelled from the spec: the migration loop — for each version from
`cur + 1` to `target` in strictly ascending order, apply one step. -/
def migrateFrom (steps : Nat → Nat → Nat) (target : Nat) (cur : Nat) (st : DBState) : DBState :=
  if cur < target then migrateFrom steps target (cur + 1) (applyStep steps cur st) else st
termination_by target - cur
decreasing_by omega

/-- Modelled from the spec: `migrate(current_version, target_version)`; if
the store is already at the target version the run is skipped with no side
effects (summary `none`). -/
def migrate (steps : Nat → Nat → Nat) (target : Nat) (st : DBState) : DBState × Option Summary :=
  let cur := versionOf st
  if cur = target then (st, none)
  else
    let st1 := migrateFrom steps target cur st
    (st1, some { fromSchema := cur, toSchema := target, backupDir := (st1.history.getLast?).bind (·.backupDir) })

/-- Lookup of a backup directory by id. -/
def lookupBackup (bid : Nat) (bs : List (Nat × Nat)) : Option Nat :=
  (bs.find? (fun e => e.1 == bid)).map (·.2)

/-- Modelled from the spec: `rollback_last()` — find the most recent
migration-history record; if its backup is null or missing, fail with
"nothing to roll back" without mutating state; otherwise restore the store
content from the backup, set the meta version (and alias) to the record's
`from_schema`, and append a reversal record `(to, from, null, now)`. -/
def rollbackLast (st : DBState) : Bool × String × DBState :=
  match st.history.getLast? with
  | none => (false, "nothing to roll back", st)
  | some r =>
    match r.backupDir with
    | none => (false, "nothing to roll back", st)
    | some bid =>
      match lookupBackup bid st.backups with
      | none => (false, "nothing to roll back", st)
      | some saved =>
        let st1 := setVersion r.fromSchema { st with content := saved }
        (true, "ROLLBACK_OK",
          { st1 with
            history := st1.history ++
              [{ fromSchema := r.toSchema, toSchema := r.fromSchema, backupDir := none, appliedAt := st1.now }] })

/-- Interruption note appended by runtime-state recovery. -/
def interruptedNote : String := "...interrupted recovery on startup"

/-- Modelled from the spec: close out one run left `running` by a crashed
process. -/
def recoverRun (now : Nat) (r : PRun) : PRun :=
  if r.status = "running" then
    { r with status := "error", finishedAt := some now, message := r.message ++ interruptedNote }
  else r

/-- Modelled from the spec: `recover_runtime_state()` — every `running` run
is closed out as `error` with a synthetic end time and diagnostic note, and
each such run's owning project is reset to `pending`. -/
def recoverRuntimeState (st : DBState) : DBState :=
  { st with
    runs := st.runs.map (recoverRun st.now)
    projects := st.projects.map (fun p =>
      if st.runs.any (fun r => r.status == "running" && r.projectId == p.id) then
        { p with status := "pending" }
      else p) }

/-- Lookup of a series row by id (`get_series`). -/
def getSeries (sid : Nat) (st : DBState) : Option Series :=
  st.series.find? (fun s => s.id == sid)

/-- Modelled from the spec: null out the series linkage of one project
referencing the deleted series. -/
def detachProject (sid : Nat) (p : Project) : Project :=
  if p.seriesId = some sid then { p with seriesId := none, volumeNo := none } else p

/-- Modelled from the spec: `delete_series(series_id) -> count_detached` —
deletes the series row and nulls out `series_id` and `volume_no` on every
referencing project in the same failure-atomic unit (one pure state
transition here), returning the number of detached projects. -/
def deleteSeries (sid : Nat) (st : DBState) : Nat × DBState :=
  ((st.projects.filter (fun p => p.seriesId == some sid)).length,
    { st with
      series := st.series.filter (fun s => !(s.id == sid))
      projects := st.projects.map (detachProject sid) })

/-- Modelled from the spec: the open sequence with migrations disabled —
drift repair (identity on this structurally current model), then version
resolution seeding both meta keys, then optional runtime-state recovery. -/
def openNoMigrate (recover : Bool) (st : DBState) : DBState :=
  let st1 := setVersion (versionOf st) st
  if recover then recoverRuntimeState st1 else st1

/-- Modelled from the spec: `open(store_path, options)` — drift repair
(identity on this structurally current model), then version seeding, then
the migration runner, then optional runtime-state recovery, in that fixed
order. -/
def openDB (steps : Nat → Nat → Nat) (target : Nat) (runMig recover : Bool)
    (st : DBState) : DBState × Option Summary :=
  let st1 := setVersion (versionOf st) st
  let res := if runMig then migrate steps target st1 else (st1, none)
  ((if recover then recoverRuntimeState res.1 else res.1), res.2)

/-- Embeds `cmd_migrate_only` of `db_maintenance.py`: open with migrations
and recovery enabled, print `MIGRATION_OK ...` when a summary was produced
and `MIGRATION_SKIPPED ...` otherwise, and return exit code 0. -/
def cmdMigrateOnly (steps : Nat → Nat → Nat) (target : Nat) (st : DBState) :
    Nat × String × DBState :=
  let res := openDB steps target true true st
  match res.2 with
  | some _ => (0, "MIGRATION_OK", res.1)
  | none => (0, "MIGRATION_SKIPPED schema already current", res.1)

/-- Embeds `cmd_rollback_last` of `db_maintenance.py`: open with migrations
and recovery disabled, run `rollback_last_migration`, and return exit code 0
on success and 2 otherwise. -/
def cmdRollbackLast (st : DBState) : Nat × String × DBState :=
  let st0 := openNoMigrate false st
  let r := rollbackLast st0
  (if r.1 then 0 else 2, r.2.1, r.2.2)

/-- Embeds `cmd_report` of `db_maintenance.py`: read-only report of the most
recent migration-history records, newest first; exit code 0. -/
def cmdReport (limit : Nat) (st : DBState) : Nat × List MigRecord :=
  (0, st.history.reverse.take limit)

/-- Embeds the process boundary `raise SystemExit(main())`: a normal return
becomes the exit code, an uncaught process-level exception terminates the
interpreter with exit code 1. -/
def processExitCode (r : Except String Nat) : Nat :=
  match r with
  | .ok c => c
  | .error _ => 1

end ProjectDBModel

/-!
Part 3 models Schema Drift Repair (spec section 4.7) at the column level.
The repair procedure itself lives in the missing `project_db.py`; its
behaviour is pinned by `test_project_db_repairs_schema_drift_on_existing_db`.
-/

namespace DriftModel

/-- Modelled from the spec: a live table — its column list and its rows,
each row an association of column name to cell value (cells as strings; a
NULL cell is representable as a missing association only before repair). -/
structure Table where
  cols : List String
  rows : List (List (String × String))
deriving Repr, DecidableEq

/-- Cell lookup in one row. -/
def lookupCell (key : String) (row : List (String × String)) : Option String :=
  (row.find? (fun e => e.1 == key)).map (·.2)

/-- Modelled from the spec: add one missing column with a safe literal
default (never recomputed from other columns); a present column is left
untouched. -/
def addColumn (name dflt : String) (t : Table) : Table :=
  if name ∈ t.cols then t
  else
    { cols := t.cols ++ [name]
      rows := t.rows.map (fun r => r ++ [(name, dflt)]) }

/-- Modelled from the spec: drift repair — for every column of the expected
schema missing from the live table, add it with its safe default.  The
procedure reads no schema version (it runs unconditionally on every open,
before migration and recovery). -/
def driftRepair : List (String × String) → Table → Table
  | [], t => t
  | (n, d) :: rest, t => driftRepair rest (addColumn n d t)

/-- Columns the current schema expects on `projects` that an old store may
lack, with their safe literal defaults (the four asserted by
`test_project_db_repairs_schema_drift_on_existing_db`). -/
def projectsExpected : List (String × String) :=
  [("series_id", "NULL"), ("volume_no", "NULL"), ("source_lang", ""), ("target_lang", "")]

end DriftModel

namespace ProjectDBModel

/-- Modelled from the spec: the ordering of `list_projects_for_series` —
`volume_no` ascending with nulls sorted last, ties broken by ascending id. -/
def volKeyLe (a b : Project) : Prop :=
  match a.volumeNo, b.volumeNo with
  | some x, some y => x < y ∨ (x = y ∧ a.id ≤ b.id)
  | some _, none => True
  | none, some _ => False
  | none, none => a.id ≤ b.id

instance : DecidableRel volKeyLe := by
  intro a b
  unfold volKeyLe
  cases a.volumeNo <;> cases b.volumeNo <;> exact inferInstance

instance : IsTotal Project volKeyLe := by
  constructor
  intro a b
  unfold volKeyLe
  cases a.volumeNo with
  | none =>
      cases b.volumeNo with
      | none => exact Nat.le_total a.id b.id
      | some y => exact Or.inr trivial
  | some x =>
      cases b.volumeNo with
      | none => exact Or.inl trivial
      | some y =>
          rcases lt_trichotomy x y with h | h | h
          · exact Or.inl (Or.inl h)
          · rcases Nat.le_total a.id b.id with hid | hid
            · exact Or.inl (Or.inr ⟨h, hid⟩)
            · exact Or.inr (Or.inr ⟨h.symm, hid⟩)
          · exact Or.inr (Or.inl h)

instance : IsTrans Project volKeyLe := by
  constructor
  intro a b c hab hbc
  unfold volKeyLe at *
  cases ha : a.volumeNo <;> cases hb : b.volumeNo <;> cases hc : c.volumeNo <;>
    simp_all
  · omega
  · rcases hab with h1 | ⟨h1, h1id⟩ <;> rcases hbc with h2 | ⟨h2, h2id⟩
    · exact Or.inl (h1.trans h2)
    · exact Or.inl (h2 ▸ h1)
    · exact Or.inl (h1 ▸ h2)
    · exact Or.inr ⟨h1.trans h2, h1id.trans h2id⟩

/-- Modelled from the spec: `list_projects_for_series(series_id)` — the
projects referencing the series, ordered by `volume_no` ascending with nulls
last and ties broken by id (the ORDER BY is embedded as a sort of the
filtered rows). -/
def listProjectsForSeries (sid : Nat) (st : DBState) : List Project :=
  List.insertionSort volKeyLe (st.projects.filter (fun p => p.seriesId == some sid))

end ProjectDBModel

namespace SeriesStoreModel

/-- Success test on an `Except`-valued transaction result. -/
def isOk : Except String (SeriesDB × Nat × Bool) → Bool
  | .ok _ => true
  | .error _ => false

theorem find?_updateById (p : Term → Bool) (l : List Term) (t t' : Term)
    (hf : l.find? p = some t) (hp : p t' = true) :
    (updateById t.id t' l).find? p = some t' := by
  induction l with
  | nil => simp at hf
  | cons x xs ih =>
      cases hpx : p x with
      | true =>
          rw [List.find?_cons_of_pos _ hpx] at hf
          injection hf with hx
          subst hx
          simp only [updateById, List.map, if_pos rfl]
          exact List.find?_cons_of_pos _ hp
      | false =>
          rw [List.find?_cons_of_neg _ (by simp [hpx])] at hf
          simp only [updateById, List.map]
          by_cases hid : x.id = t.id
          · rw [if_pos hid]
            exact List.find?_cons_of_pos _ hp
          · rw [if_neg hid, List.find?_cons_of_neg _ (by simp [hpx])]
            exact ih hf

end SeriesStoreModel

namespace SeriesStoreModel

/-- C5 counterexample: at a concrete input — a fresh series database, a term
create whose `change_log` INSERT fails — `add_or_update_term` raises instead
of committing, so the claimed best-effort behaviour (a change-log failure
neither fails the owning operation nor rolls back its primary effect) is
false on the code: the call returns the error and, the transaction having
been rolled back by the connection context manager, no new state exists. -/
theorem changeLog_failure_fails_term_create :
    addOrUpdateTerm false 100 emptyDB "Ring Gate" "Brama" "proposed" 0 "" none "" "" ""
      = .error "change_log insert failed" := by
  rfl

/-- C5 amended: a failure while appending the change-log row always fails
the owning `add_or_update_term` call — the `_log_change` INSERT runs inside
the same transaction as the primary INSERT/UPDATE, before `conn.commit()`,
with no exception handler, so the error propagates and the transaction (the
primary effect included) is rolled back; no committed state is produced. -/
theorem changeLog_failure_aborts_owner (now : Nat) (db : SeriesDB)
    (sourceTerm targetTerm status : String) (confidence : Rat)
    (origin : String) (projectId : Option Nat)
    (sourceExample targetExample notes : String) :
    isOk (addOrUpdateTerm false now db sourceTerm targetTerm status confidence
      origin projectId sourceExample targetExample notes) = false := by
  simp only [addOrUpdateTerm]
  split
  · rfl
  · split <;> rfl

end SeriesStoreModel

namespace SeriesStoreModel

/-- C10: for an already-stored term, `add_or_update_term` is monotone — the
stored confidence becomes the maximum of the stored and the supplied value
(so it never decreases), a call with status `approved` always sets the
status to `approved`, and once the status is `approved` or `rejected` a call
with any other status leaves it unchanged. -/
theorem addOrUpdateTerm_monotone
    (now : Nat) (db : SeriesDB) (sourceTerm targetTerm status : String)
    (confidence : Rat) (origin : String) (projectId : Option Nat)
    (sourceExample targetExample notes : String) (t : Term)
    (hfind : findTerm (pyStrip sourceTerm) (pyStrip targetTerm) db.terms = some t)
    (hsrc : ¬ pyStrip sourceTerm = "") (hdst : ¬ pyStrip targetTerm = "") :
    ∃ db', addOrUpdateTerm true now db sourceTerm targetTerm status confidence
        origin projectId sourceExample targetExample notes = .ok (db', t.id, false)
      ∧ ∃ t', findTerm (pyStrip sourceTerm) (pyStrip targetTerm) db'.terms = some t'
        ∧ t'.confidence = max t.confidence confidence
        ∧ t.confidence ≤ t'.confidence
        ∧ (status = "approved" → t'.status = "approved")
        ∧ (status ≠ "approved" → t.status = "approved" ∨ t.status = "rejected" →
            t'.status = t.status) := by
  have hfind' : db.terms.find? (fun x : Term =>
      x.sourceTerm == pyStrip sourceTerm && x.targetTerm == pyStrip targetTerm) = some t := hfind
  have hp := List.find?_some hfind'
  simp only [addOrUpdateTerm]
  rw [if_neg (by simp [hsrc, hdst])]
  rw [show findTerm (pyStrip sourceTerm) (pyStrip targetTerm) db.terms = some t from hfind]
  simp only [logChange, if_pos, Except.map]
  refine ⟨_, rfl, ?_⟩
  refine ⟨_, find?_updateById _ _ _ _ hfind' (by simpa using hp), ?_, ?_, ?_, ?_⟩
  · rfl
  · exact le_max_left _ _
  · intro h
    simp [h]
  · intro hne hts
    have htne : ¬ t.status = "" := by
      rcases hts with h | h <;> simp [h]
    rcases hts with h | h <;> simp [hne, htne, h]

/-- Concrete stored term used by the monotonicity witness. -/
def witTerm : Term :=
  { id := 1, sourceTerm := "Ring Gate", targetTerm := "Brama",
    status := "approved", confidence := 0, origin := "", projectId := none,
    sourceExample := "", targetExample := "", notes := "",
    createdAt := 10, updatedAt := 10, approvedAt := some 10 }

/-- Concrete series database holding `witTerm`. -/
def witDB : SeriesDB :=
  { terms := [witTerm], changeLog := [], nextTermId := 2, nextLogId := 1 }

/-- Witness for the monotonicity theorem at a concrete input: one stored
approved term, updated with status `proposed`. -/
theorem addOrUpdateTerm_monotone_witness :
    ∃ db', addOrUpdateTerm true 200 witDB "Ring Gate" "Brama" "proposed" 0 "" none "" "" ""
        = .ok (db', witTerm.id, false)
      ∧ ∃ t', findTerm (pyStrip "Ring Gate") (pyStrip "Brama") db'.terms = some t'
        ∧ t'.confidence = max witTerm.confidence 0
        ∧ witTerm.confidence ≤ t'.confidence
        ∧ ("proposed" = "approved" → t'.status = "approved")
        ∧ ("proposed" ≠ "approved" → witTerm.status = "approved" ∨ witTerm.status = "rejected" →
            t'.status = witTerm.status) :=
  addOrUpdateTerm_monotone 200 witDB "Ring Gate" "Brama" "proposed" 0 "" none "" "" ""
    witTerm (by decide) (by decide) (by decide)

end SeriesStoreModel

namespace ProjectDBModel

theorem applyStep_history (steps : Nat → Nat → Nat) (cur : Nat) (st : DBState) :
    (applyStep steps cur st).history = st.history ++
      [{ fromSchema := cur, toSchema := cur + 1, backupDir := some st.nextBackupId,
         appliedAt := st.now }] := by
  rfl

theorem versionOf_applyStep (steps : Nat → Nat → Nat) (cur : Nat) (st : DBState) :
    versionOf (applyStep steps cur st) = cur + 1 := by
  show versionOf (setVersion (cur + 1) _) = cur + 1
  exact versionOf_setVersion _ _

theorem migrateFrom_spec (steps : Nat → Nat → Nat) (b : Nat) :
    ∀ n cur st, b - cur = n → cur ≤ b → versionOf st = cur →
      ∃ recs, (migrateFrom steps b cur st).history = st.history ++ recs
        ∧ recs.length = b - cur
        ∧ (∀ r ∈ recs, r.toSchema = r.fromSchema + 1)
        ∧ versionOf (migrateFrom steps b cur st) = b := by
  intro n
  induction n with
  | zero =>
      intro cur st hn hle hv
      have hcb : cur = b := by omega
      rw [migrateFrom, if_neg (by omega)]
      exact ⟨[], by simp, by simp [hcb], by simp, by omega⟩
  | succ n ih =>
      intro cur st hn hle hv
      have hlt : cur < b := by omega
      rw [migrateFrom, if_pos hlt]
      obtain ⟨recs, h1, h2, h3, h4⟩ :=
        ih (cur + 1) (applyStep steps cur st) (by omega) (by omega)
          (versionOf_applyStep steps cur st)
      refine ⟨{ fromSchema := cur, toSchema := cur + 1, backupDir := some st.nextBackupId,
                appliedAt := st.now } :: recs, ?_, by simpa using by omega, ?_, h4⟩
      · rw [h1, applyStep_history]
        simp
      · intro r hr
        rcases List.mem_cons.mp hr with hr | hr
        · simp [hr]
        · exact h3 r hr

/-- C1: migrating a store at version `a` to target `b` with `a < b` appends
exactly `b - a` migration-history records, each forward record satisfying
`to_schema = from_schema + 1` (one step at a time, never skipping), and
leaves the stored schema version equal to `b`. -/
theorem migrate_appends_one_step_records (steps : Nat → Nat → Nat) (a b : Nat)
    (st : DBState) (hab : a < b) (hv : versionOf st = a) :
    ∃ recs, ((migrate steps b st).1).history = st.history ++ recs
      ∧ recs.length = b - a
      ∧ (∀ r ∈ recs, r.toSchema = r.fromSchema + 1)
      ∧ versionOf (migrate steps b st).1 = b := by
  simp only [migrate, hv]
  rw [if_neg (by omega)]
  exact migrateFrom_spec steps b (b - a) a st rfl (by omega) hv

/-- Concrete empty store used by the migration and open witnesses. -/
def st0 : DBState :=
  { meta := [], history := [], backups := [], content := 7,
    projects := [], runs := [], series := [], nextBackupId := 1, now := 11 }

/-- Concrete abstract migration-step content transformation. -/
def stepsWit : Nat → Nat → Nat := fun v c => c + v

/-- Witness for the migration theorem at a concrete input: the fresh store
`st0` (version 0) migrated to version 2. -/
theorem migrate_appends_one_step_records_witness :
    (0 : Nat) < 2 ∧ versionOf st0 = 0 ∧
      ∃ recs, ((migrate stepsWit 2 st0).1).history = st0.history ++ recs
        ∧ recs.length = 2 - 0
        ∧ (∀ r ∈ recs, r.toSchema = r.fromSchema + 1)
        ∧ versionOf (migrate stepsWit 2 st0).1 = 2 :=
  ⟨by decide, rfl, migrate_appends_one_step_records stepsWit 0 2 st0 (by decide) rfl⟩

end ProjectDBModel

namespace ProjectDBModel

theorem lookupBackup_append_fresh (bid c : Nat) (bs : List (Nat × Nat))
    (h : ∀ e ∈ bs, e.1 ≠ bid) : lookupBackup bid (bs ++ [(bid, c)]) = some c := by
  induction bs with
  | nil => simp [lookupBackup]
  | cons e rest ih =>
      have he := h e (by simp)
      unfold lookupBackup
      rw [List.cons_append, List.find?_cons_of_neg _ (by simp [he])]
      exact ih (fun x hx => h x (by simp [hx]))

theorem rollbackLast_restores (st : DBState) (r : MigRecord) (bid saved : Nat)
    (hlast : st.history.getLast? = some r) (hb : r.backupDir = some bid)
    (hbk : lookupBackup bid st.backups = some saved) :
    (rollbackLast st).1 = true
    ∧ (rollbackLast st).2.2.content = saved
    ∧ versionOf (rollbackLast st).2.2 = r.fromSchema
    ∧ (rollbackLast st).2.2.history = st.history ++
        [{ fromSchema := r.toSchema, toSchema := r.fromSchema, backupDir := none,
           appliedAt := st.now }] := by
  unfold rollbackLast
  rw [hlast]
  dsimp only
  rw [hb]
  dsimp only
  rw [hbk]
  dsimp only
  refine ⟨rfl, rfl, ?_, rfl⟩
  exact versionOf_setVersion _ _

theorem rollbackLast_noBackup (st : DBState)
    (h : st.history.getLast? = none
      ∨ ∃ r, st.history.getLast? = some r ∧ r.backupDir = none) :
    rollbackLast st = (false, "nothing to roll back", st) := by
  unfold rollbackLast
  rcases h with h | ⟨r, hr, hb⟩
  · rw [h]
  · rw [hr]
    dsimp only
    rw [hb]

theorem applyStep_backups (steps : Nat → Nat → Nat) (cur : Nat) (st : DBState) :
    (applyStep steps cur st).backups = st.backups ++ [(st.nextBackupId, st.content)] := by
  rfl

theorem migrate_one_step (steps : Nat → Nat → Nat) (a : Nat) (st : DBState)
    (hv : versionOf st = a) :
    (migrate steps (a + 1) st).1 = applyStep steps a st := by
  simp only [migrate, hv]
  rw [if_neg (by omega), migrateFrom, if_pos (by omega), migrateFrom, if_neg (by omega)]

/-- C2: rollback behaviour.  First, on any store whose most recent
migration-history record carries a valid backup, `rollback_last` succeeds,
restores the store content from that backup, sets the stored schema version
to the record's `from_schema`, and appends a reversal history record.
Second, composed with a one-step migration (under the fresh-backup-directory
guarantee of the snapshot contract), it restores exactly the pre-migration
content and the pre-migration version.  Third, on a store whose most recent
record carries no backup (or with no history at all), it returns failure
with "nothing to roll back" and mutates nothing. -/
theorem rollbackLast_spec :
    (∀ (st : DBState) (r : MigRecord) (bid saved : Nat),
      st.history.getLast? = some r → r.backupDir = some bid →
      lookupBackup bid st.backups = some saved →
      (rollbackLast st).1 = true
      ∧ (rollbackLast st).2.2.content = saved
      ∧ versionOf (rollbackLast st).2.2 = r.fromSchema
      ∧ (rollbackLast st).2.2.history = st.history ++
          [{ fromSchema := r.toSchema, toSchema := r.fromSchema, backupDir := none,
             appliedAt := st.now }])
    ∧ (∀ (steps : Nat → Nat → Nat) (a : Nat) (st : DBState),
      versionOf st = a → (∀ e ∈ st.backups, e.1 ≠ st.nextBackupId) →
      (rollbackLast (migrate steps (a + 1) st).1).1 = true
      ∧ (rollbackLast (migrate steps (a + 1) st).1).2.2.content = st.content
      ∧ versionOf (rollbackLast (migrate steps (a + 1) st).1).2.2 = a)
    ∧ (∀ st : DBState,
      (st.history.getLast? = none
        ∨ ∃ r, st.history.getLast? = some r ∧ r.backupDir = none) →
      rollbackLast st = (false, "nothing to roll back", st)) := by
  refine ⟨rollbackLast_restores, ?_, rollbackLast_noBackup⟩
  intro steps a st hv hfresh
  rw [migrate_one_step steps a st hv]
  have hlast : (applyStep steps a st).history.getLast? =
      some { fromSchema := a, toSchema := a + 1, backupDir := some st.nextBackupId,
             appliedAt := st.now } := by
    rw [applyStep_history]
    exact List.getLast?_concat _
  have hbk : lookupBackup st.nextBackupId (applyStep steps a st).backups = some st.content := by
    rw [applyStep_backups]
    exact lookupBackup_append_fresh _ _ _ hfresh
  obtain ⟨h1, h2, h3, _⟩ := rollbackLast_restores (applyStep steps a st) _ _ _ hlast rfl hbk
  exact ⟨h1, h2, h3⟩

/-- Concrete store whose single history record carries backup 5 holding
content 42. -/
def stRoll : DBState :=
  { meta := [(canonKey, 4), (aliasKey, 4)],
    history := [{ fromSchema := 3, toSchema := 4, backupDir := some 5, appliedAt := 20 }],
    backups := [(5, 42)], content := 99, projects := [], runs := [], series := [],
    nextBackupId := 6, now := 30 }

/-- Concrete store whose most recent history record carries no backup. -/
def stNoBackup : DBState :=
  { meta := [(canonKey, 3), (aliasKey, 3)],
    history := [{ fromSchema := 4, toSchema := 3, backupDir := none, appliedAt := 21 }],
    backups := [], content := 99, projects := [], runs := [], series := [],
    nextBackupId := 1, now := 31 }

/-- Witness for the rollback theorem at concrete inputs: a backup-bearing
store, a one-step-migrated fresh store, and a backup-less store. -/
theorem rollbackLast_spec_witness :
    ((rollbackLast stRoll).1 = true
      ∧ (rollbackLast stRoll).2.2.content = 42
      ∧ versionOf (rollbackLast stRoll).2.2 = 3
      ∧ (rollbackLast stRoll).2.2.history = stRoll.history ++
          [{ fromSchema := 4, toSchema := 3, backupDir := none, appliedAt := stRoll.now }])
    ∧ ((rollbackLast (migrate stepsWit (0 + 1) st0).1).1 = true
      ∧ (rollbackLast (migrate stepsWit (0 + 1) st0).1).2.2.content = st0.content
      ∧ versionOf (rollbackLast (migrate stepsWit (0 + 1) st0).1).2.2 = 0)
    ∧ rollbackLast stNoBackup = (false, "nothing to roll back", stNoBackup) :=
  ⟨rollbackLast_spec.1 stRoll _ 5 42 rfl rfl rfl,
   rollbackLast_spec.2.1 stepsWit 0 st0 rfl (by decide),
   rollbackLast_spec.2.2 stNoBackup (Or.inr ⟨_, rfl, rfl⟩)⟩

end ProjectDBModel

namespace ProjectDBModel

/-- Both schema-version meta keys exist and hold equal values. -/
def metaAligned (st : DBState) : Prop :=
  ∃ v, metaGet canonKey st.meta = some v ∧ metaGet aliasKey st.meta = some v

theorem metaAligned_setVersion (v : Nat) (st : DBState) :
    metaAligned (setVersion v st) :=
  ⟨v, metaGet_canon_setVersion v st, metaGet_alias_setVersion v st⟩

theorem metaAligned_of_meta_eq {st st2 : DBState} (h : st2.meta = st.meta)
    (hb : metaAligned st) : metaAligned st2 := by
  obtain ⟨v, h1, h2⟩ := hb
  exact ⟨v, h ▸ h1, h ▸ h2⟩

theorem applyStep_meta (steps : Nat → Nat → Nat) (cur : Nat) (st : DBState) :
    (applyStep steps cur st).meta = metaSet aliasKey (cur + 1) (metaSet canonKey (cur + 1) st.meta) := by
  rfl

theorem metaAligned_applyStep (steps : Nat → Nat → Nat) (cur : Nat) (st : DBState) :
    metaAligned (applyStep steps cur st) :=
  metaAligned_of_meta_eq (by rfl) (metaAligned_setVersion (cur + 1) st)

theorem metaAligned_migrateFrom (steps : Nat → Nat → Nat) (b : Nat) :
    ∀ n cur st, b - cur = n → metaAligned st → metaAligned (migrateFrom steps b cur st) := by
  intro n
  induction n with
  | zero =>
      intro cur st hn hb
      rw [migrateFrom, if_neg (by omega)]
      exact hb
  | succ n ih =>
      intro cur st hn hb
      by_cases hlt : cur < b
      · rw [migrateFrom, if_pos hlt]
        exact ih (cur + 1) _ (by omega) (metaAligned_applyStep steps cur st)
      · rw [migrateFrom, if_neg hlt]
        exact hb

theorem recover_meta (st : DBState) : (recoverRuntimeState st).meta = st.meta := by
  rfl

theorem versionOf_of_meta_eq {st st2 : DBState} (h : st2.meta = st.meta) :
    versionOf st2 = versionOf st := by
  unfold versionOf
  rw [h]

/-- C3: after every successful open both the canonical and the legacy-alias
schema-version meta keys exist and hold equal values (for any store, any
migration setting, any recovery setting — a brand-new store included); and
opening a store carrying only the legacy alias key with value `v`, with
migrations disabled, reports schema version `v` and leaves both keys equal
to `v`. -/
theorem open_meta_keys_aligned :
    (∀ (steps : Nat → Nat → Nat) (target : Nat) (runMig recover : Bool) (st : DBState),
      metaAligned (openDB steps target runMig recover st).1)
    ∧ (∀ (v : Nat) (recover : Bool) (st : DBState),
      metaGet canonKey st.meta = none → metaGet aliasKey st.meta = some v →
      versionOf (openNoMigrate recover st) = v
      ∧ metaGet canonKey (openNoMigrate recover st).meta = some v
      ∧ metaGet aliasKey (openNoMigrate recover st).meta = some v) := by
  constructor
  · intro steps target runMig recover st
    have h1 : metaAligned (setVersion (versionOf st) st) := metaAligned_setVersion _ _
    have h2 : metaAligned (if runMig then migrate steps target (setVersion (versionOf st) st)
        else (setVersion (versionOf st) st, none)).1 := by
      cases runMig with
      | false => exact h1
      | true =>
          simp only [if_pos]
          unfold migrate
          by_cases he : versionOf (setVersion (versionOf st) st) = target
          · rw [if_pos he]
            exact h1
          · rw [if_neg he]
            exact metaAligned_migrateFrom steps target _ _ _ rfl h1
    unfold openDB
    cases recover with
    | false => exact h2
    | true => exact metaAligned_of_meta_eq (recover_meta _) h2
  · intro v recover st hc ha
    have hv : versionOf st = v := by
      unfold versionOf
      rw [hc, ha]
      rfl
    have hm : (openNoMigrate recover st).meta =
        (setVersion (versionOf st) st).meta := by
      unfold openNoMigrate
      cases recover with
      | false => rfl
      | true => exact recover_meta _
    refine ⟨?_, ?_, ?_⟩
    · rw [versionOf_of_meta_eq hm, versionOf_setVersion, hv]
    · rw [show (openNoMigrate recover st).meta = _ from hm, hv]
      exact metaGet_canon_setVersion v st
    · rw [show (openNoMigrate recover st).meta = _ from hm, hv]
      exact metaGet_alias_setVersion v st

/-- Concrete legacy store carrying only the alias version key at value 8. -/
def stLegacy : DBState :=
  { meta := [(aliasKey, 8)], history := [], backups := [], content := 0,
    projects := [], runs := [], series := [], nextBackupId := 1, now := 40 }

/-- Witness for the open-invariant theorem at concrete inputs: a fresh store
fully opened, and the alias-only legacy store opened without migrations. -/
theorem open_meta_keys_aligned_witness :
    metaAligned (openDB stepsWit 2 true true st0).1
    ∧ (versionOf (openNoMigrate false stLegacy) = 8
      ∧ metaGet canonKey (openNoMigrate false stLegacy).meta = some 8
      ∧ metaGet aliasKey (openNoMigrate false stLegacy).meta = some 8) :=
  ⟨open_meta_keys_aligned.1 stepsWit 2 true true st0,
   open_meta_keys_aligned.2 8 false stLegacy rfl rfl⟩

end ProjectDBModel

namespace ProjectDBModel

/-- C4: with runtime-state recovery enabled, every run row whose status is
`running` is transitioned to `error` with a non-null `finished_at` and the
interruption note appended to its message, and each such run's owning
project has its status set to `pending`; the statement quantifies over all
stores, so it holds for zero, one, or many such rows. -/
theorem recover_runtime_state_spec (st : DBState) :
    (∀ r ∈ st.runs, r.status = "running" →
      recoverRun st.now r ∈ (recoverRuntimeState st).runs
      ∧ (recoverRun st.now r).status = "error"
      ∧ (recoverRun st.now r).finishedAt = some st.now
      ∧ (recoverRun st.now r).message = r.message ++ interruptedNote)
    ∧ (∀ p ∈ st.projects, (∃ r ∈ st.runs, r.status = "running" ∧ r.projectId = p.id) →
      { p with status := "pending" } ∈ (recoverRuntimeState st).projects) := by
  constructor
  · intro r hr hs
    refine ⟨List.mem_map_of_mem _ hr, ?_, ?_, ?_⟩ <;>
      simp [recoverRun, hs]
  · intro p hp hex
    obtain ⟨r, hr, hs, hpid⟩ := hex
    have hcond : st.runs.any (fun r => r.status == "running" && r.projectId == p.id) = true :=
      List.any_eq_true.mpr ⟨r, hr, by simp [hs, hpid]⟩
    have hmem := List.mem_map_of_mem
      (fun q : Project =>
        if st.runs.any (fun r => r.status == "running" && r.projectId == q.id) then
          { q with status := "pending" }
        else q) hp
    simp only [hcond, if_true] at hmem
    exact hmem

/-- Concrete interrupted run for the recovery witness. -/
def runWit : PRun :=
  { id := 1, projectId := 2, step := "translate", status := "running",
    startedAt := 5, finishedAt := none, message := "msg" }

/-- Concrete owning project for the recovery witness. -/
def projWit : Project :=
  { id := 2, name := "P", seriesId := none, volumeNo := none,
    status := "running", updatedAt := 6 }

/-- Concrete store holding the interrupted run and its owning project. -/
def stRun : DBState :=
  { meta := [], history := [], backups := [], content := 0,
    projects := [projWit], runs := [runWit], series := [], nextBackupId := 1, now := 50 }

/-- Witness for the recovery theorem at a concrete input: one interrupted
run whose owning project is reset to pending. -/
theorem recover_runtime_state_spec_witness :
    (recoverRun stRun.now runWit ∈ (recoverRuntimeState stRun).runs
      ∧ (recoverRun stRun.now runWit).status = "error"
      ∧ (recoverRun stRun.now runWit).finishedAt = some stRun.now
      ∧ (recoverRun stRun.now runWit).message = runWit.message ++ interruptedNote)
    ∧ { projWit with status := "pending" } ∈ (recoverRuntimeState stRun).projects :=
  ⟨(recover_runtime_state_spec stRun).1 runWit (by decide) (by decide),
   (recover_runtime_state_spec stRun).2 projWit (by decide)
     ⟨runWit, by decide, by decide, by decide⟩⟩

end ProjectDBModel

namespace ProjectDBModel

/-- C6: `delete_series` (one pure, atomic state transition in this model)
returns the count of projects that referenced the series, removes the series
row (it is no longer retrievable), and nulls out `series_id` and `volume_no`
on every referencing project while keeping every project present. -/
theorem delete_series_detaches (sid : Nat) (st : DBState) :
    (deleteSeries sid st).1 = (st.projects.filter (fun p => p.seriesId == some sid)).length
    ∧ getSeries sid (deleteSeries sid st).2 = none
    ∧ (∀ p ∈ st.projects, detachProject sid p ∈ (deleteSeries sid st).2.projects
        ∧ (p.seriesId = some sid →
            (detachProject sid p).seriesId = none ∧ (detachProject sid p).volumeNo = none)) := by
  refine ⟨rfl, ?_, ?_⟩
  · apply List.find?_eq_none.mpr
    intro s hs
    have := List.mem_filter.mp hs
    simpa using this.2
  · intro p hp
    refine ⟨List.mem_map_of_mem _ hp, ?_⟩
    intro h
    simp [detachProject, h]

/-- Concrete series row for the deletion witness. -/
def serWit : Series := { id := 1, name := "Saga" }

/-- Concrete attached project for the deletion witness. -/
def projAttached : Project :=
  { id := 3, name := "Tom 1", seriesId := some 1, volumeNo := some 1,
    status := "idle", updatedAt := 7 }

/-- Concrete store for the deletion witness: one series, one attached
project. -/
def stSeries : DBState :=
  { meta := [], history := [], backups := [], content := 0,
    projects := [projAttached], runs := [], series := [serWit],
    nextBackupId := 1, now := 60 }

/-- Witness for the series-deletion theorem at a concrete input. -/
theorem delete_series_detaches_witness :
    (deleteSeries 1 stSeries).1
        = (stSeries.projects.filter (fun p => p.seriesId == some 1)).length
    ∧ getSeries 1 (deleteSeries 1 stSeries).2 = none
    ∧ (detachProject 1 projAttached ∈ (deleteSeries 1 stSeries).2.projects
        ∧ (projAttached.seriesId = some 1 →
            (detachProject 1 projAttached).seriesId = none
            ∧ (detachProject 1 projAttached).volumeNo = none)) :=
  ⟨(delete_series_detaches 1 stSeries).1,
   (delete_series_detaches 1 stSeries).2.1,
   (delete_series_detaches 1 stSeries).2.2 projAttached (by decide)⟩

end ProjectDBModel

namespace DriftModel

theorem mem_cols_addColumn (n d : String) (t : Table) (c : String)
    (h : c ∈ t.cols) : c ∈ (addColumn n d t).cols := by
  unfold addColumn
  by_cases hn : n ∈ t.cols
  · rw [if_pos hn]
    exact h
  · rw [if_neg hn]
    exact List.mem_append_left _ h

theorem self_mem_cols_addColumn (n d : String) (t : Table) :
    n ∈ (addColumn n d t).cols := by
  unfold addColumn
  by_cases hn : n ∈ t.cols
  · rw [if_pos hn]
    exact hn
  · rw [if_neg hn]
    simp

theorem mem_cols_driftRepair (e : List (String × String)) :
    ∀ t c, c ∈ t.cols → c ∈ (driftRepair e t).cols := by
  induction e with
  | nil =>
      intro t c h
      exact h
  | cons nd rest ih =>
      intro t c h
      exact ih _ _ (mem_cols_addColumn nd.1 nd.2 t c h)

theorem expected_mem_cols_driftRepair (e : List (String × String)) :
    ∀ t, ∀ nd ∈ e, nd.1 ∈ (driftRepair e t).cols := by
  induction e with
  | nil =>
      intro t nd h
      simp at h
  | cons hd rest ih =>
      intro t nd h
      rcases List.mem_cons.mp h with h | h
      · subst h
        exact mem_cols_driftRepair rest _ _ (self_mem_cols_addColumn nd.1 nd.2 t)
      · exact ih _ nd h

theorem cols_driftRepair_append (e : List (String × String)) :
    ∀ t, ∃ extra, (driftRepair e t).cols = t.cols ++ extra := by
  induction e with
  | nil =>
      intro t
      exact ⟨[], by simp [driftRepair]⟩
  | cons hd rest ih =>
      intro t
      show ∃ extra, (driftRepair rest (addColumn hd.1 hd.2 t)).cols = t.cols ++ extra
      obtain ⟨e2, h2⟩ := ih (addColumn hd.1 hd.2 t)
      by_cases hn : hd.1 ∈ t.cols
      · have ha : addColumn hd.1 hd.2 t = t := by
          unfold addColumn
          rw [if_pos hn]
        rw [ha] at h2
        rw [ha]
        exact ⟨e2, h2⟩
      · have ha : addColumn hd.1 hd.2 t =
            { cols := t.cols ++ [hd.1], rows := t.rows.map (fun r => r ++ [(hd.1, hd.2)]) } := by
          unfold addColumn
          rw [if_neg hn]
        rw [ha] at h2
        rw [ha, h2]
        exact ⟨hd.1 :: e2, by simp⟩

theorem lookupCell_append_of_isSome (k : String) (r s : List (String × String))
    (h : (lookupCell k r).isSome = true) : lookupCell k (r ++ s) = lookupCell k r := by
  induction r with
  | nil => simp [lookupCell] at h
  | cons e rest ih =>
      cases he : (e.1 == k) with
      | true => simp [lookupCell, List.find?, he]
      | false =>
          simp only [lookupCell, List.cons_append, List.find?, he] at h ⊢
          exact ih h

theorem rows_preserved_addColumn (n d : String) (t : Table) (row : List (String × String))
    (h : row ∈ t.rows) :
    ∃ row' ∈ (addColumn n d t).rows,
      ∀ k, (lookupCell k row).isSome = true → lookupCell k row' = lookupCell k row := by
  unfold addColumn
  by_cases hn : n ∈ t.cols
  · rw [if_pos hn]
    exact ⟨row, h, fun k _ => rfl⟩
  · rw [if_neg hn]
    exact ⟨row ++ [(n, d)], List.mem_map_of_mem _ h,
      fun k hk => lookupCell_append_of_isSome k row _ hk⟩

theorem rows_preserved_driftRepair (e : List (String × String)) :
    ∀ t row, row ∈ t.rows →
      ∃ row' ∈ (driftRepair e t).rows,
        ∀ k, (lookupCell k row).isSome = true → lookupCell k row' = lookupCell k row := by
  induction e with
  | nil =>
      intro t row h
      exact ⟨row, h, fun k _ => rfl⟩
  | cons hd rest ih =>
      intro t row h
      obtain ⟨row1, h1, hp1⟩ := rows_preserved_addColumn hd.1 hd.2 t row h
      obtain ⟨row2, h2, hp2⟩ := ih (addColumn hd.1 hd.2 t) row1 h1
      refine ⟨row2, h2, ?_⟩
      intro k hk
      rw [hp2 k (by rw [hp1 k hk]; exact hk), hp1 k hk]

theorem driftRepair_noop (e : List (String × String)) :
    ∀ t, (∀ nd ∈ e, nd.1 ∈ t.cols) → driftRepair e t = t := by
  induction e with
  | nil =>
      intro t _
      rfl
  | cons hd rest ih =>
      intro t h
      have hhd : hd.1 ∈ t.cols := h hd (by simp)
      show driftRepair rest (addColumn hd.1 hd.2 t) = t
      rw [show addColumn hd.1 hd.2 t = t from by unfold addColumn; rw [if_pos hhd]]
      exact ih t (fun nd hnd => h nd (by simp [hnd]))

/-- C7: drift repair.  After repair every expected column exists; every
pre-existing row keeps all its pre-existing cell values; the repair is
idempotent; and it is additive-only — the resulting column list is the
original list with columns appended, never dropped or renamed.  The
procedure takes no schema-version input, so its behaviour is the same
whatever version the store records. -/
theorem drift_repair_spec (expected : List (String × String)) (t : Table) :
    (∀ nd ∈ expected, nd.1 ∈ (driftRepair expected t).cols)
    ∧ (∀ row ∈ t.rows, ∃ row' ∈ (driftRepair expected t).rows,
        ∀ k, (lookupCell k row).isSome = true → lookupCell k row' = lookupCell k row)
    ∧ driftRepair expected (driftRepair expected t) = driftRepair expected t
    ∧ (∃ extra, (driftRepair expected t).cols = t.cols ++ extra) :=
  ⟨expected_mem_cols_driftRepair expected t,
   fun row h => rows_preserved_driftRepair expected t row h,
   driftRepair_noop expected _ (expected_mem_cols_driftRepair expected t),
   cols_driftRepair_append expected t⟩

/-- Concrete legacy `projects` table (the pre-series schema created by
`test_project_db_repairs_schema_drift_on_existing_db`, abridged to three of
its columns, with one row of data). -/
def legacyProjects : Table :=
  { cols := ["id", "name", "status"]
    rows := [[("id", "1"), ("name", "Old Book"), ("status", "idle")]] }

/-- Witness for the drift-repair theorem at a concrete input: the legacy
table gains the four expected columns, keeps its data, and repair is
idempotent. -/
theorem drift_repair_spec_witness :
    ("series_id", "NULL") ∈ projectsExpected
    ∧ "series_id" ∈ (driftRepair projectsExpected legacyProjects).cols
    ∧ (∃ row' ∈ (driftRepair projectsExpected legacyProjects).rows,
        ∀ k, (lookupCell k [("id", "1"), ("name", "Old Book"), ("status", "idle")]).isSome = true →
          lookupCell k row' = lookupCell k [("id", "1"), ("name", "Old Book"), ("status", "idle")])
    ∧ driftRepair projectsExpected (driftRepair projectsExpected legacyProjects)
        = driftRepair projectsExpected legacyProjects :=
  ⟨by decide,
   (drift_repair_spec projectsExpected legacyProjects).1 ("series_id", "NULL") (by decide),
   (drift_repair_spec projectsExpected legacyProjects).2.1
     [("id", "1"), ("name", "Old Book"), ("status", "idle")] (by decide),
   (drift_repair_spec projectsExpected legacyProjects).2.2.1⟩

end DriftModel

namespace ProjectDBModel

/-- C8: `list_projects_for_series` returns exactly the series' projects (a
permutation of the referencing rows), sorted by the `volKeyLe` ordering —
`volume_no` ascending, nulls after every numbered volume, ties broken by
ascending id; the third conjunct spells out the nulls-last reading. -/
theorem list_projects_for_series_sorted (sid : Nat) (st : DBState) :
    List.Sorted volKeyLe (listProjectsForSeries sid st)
    ∧ List.Perm (listProjectsForSeries sid st)
        (st.projects.filter (fun p => p.seriesId == some sid))
    ∧ (∀ a b : Fin (listProjectsForSeries sid st).length, a < b →
        ((listProjectsForSeries sid st).get a).volumeNo = none →
        ((listProjectsForSeries sid st).get b).volumeNo = none) := by
  have hs : List.Sorted volKeyLe (listProjectsForSeries sid st) :=
    List.sorted_insertionSort volKeyLe _
  refine ⟨hs, List.perm_insertionSort volKeyLe _, ?_⟩
  intro a b hab hnone
  cases hb : ((listProjectsForSeries sid st).get b).volumeNo with
  | none => rfl
  | some y =>
      exfalso
      have hrel := hs.rel_get_of_lt hab
      unfold volKeyLe at hrel
      rw [hnone, hb] at hrel
      exact hrel

/-- Concrete store for the sorted-listing witness: volumes 2, 1 and a
null-volume project all in series 1. -/
def stSort : DBState :=
  { meta := [], history := [], backups := [], content := 0,
    projects :=
      [{ id := 1, name := "Tom 2", seriesId := some 1, volumeNo := some 2,
         status := "idle", updatedAt := 1 },
       { id := 2, name := "Tom 1", seriesId := some 1, volumeNo := some 1,
         status := "idle", updatedAt := 2 },
       { id := 3, name := "Tom ?", seriesId := some 1, volumeNo := none,
         status := "idle", updatedAt := 3 }],
    runs := [], series := [{ id := 1, name := "Saga Sort" }],
    nextBackupId := 1, now := 70 }

/-- Witness for the sorted-listing theorem at a concrete input. -/
theorem list_projects_for_series_sorted_witness :
    List.Sorted volKeyLe (listProjectsForSeries 1 stSort)
    ∧ List.Perm (listProjectsForSeries 1 stSort)
        (stSort.projects.filter (fun p => p.seriesId == some 1)) :=
  ⟨(list_projects_for_series_sorted 1 stSort).1,
   (list_projects_for_series_sorted 1 stSort).2.1⟩

end ProjectDBModel

namespace ProjectDBModel

/-- C9: the maintenance entry point returns exit code 0 on success of a
migrate-only run (whether steps were applied or the schema was already
current), exit code 2 when rollback is requested but there is nothing to
roll back, and a non-zero code when a process-level exception escapes
(`raise SystemExit(main())` on an uncaught exception exits with 1). -/
theorem maintenance_exit_codes :
    (∀ (steps : Nat → Nat → Nat) (target : Nat) (st : DBState),
      (cmdMigrateOnly steps target st).1 = 0)
    ∧ (∀ st : DBState,
      (st.history.getLast? = none
        ∨ ∃ r, st.history.getLast? = some r ∧ r.backupDir = none) →
      (cmdRollbackLast st).1 = 2)
    ∧ (∀ e : String, processExitCode (.error e) ≠ 0) := by
  refine ⟨?_, ?_, ?_⟩
  · intro steps target st
    simp only [cmdMigrateOnly]
    split <;> rfl
  · intro st h
    have h' : (openNoMigrate false st).history.getLast? = none
        ∨ ∃ r, (openNoMigrate false st).history.getLast? = some r ∧ r.backupDir = none := h
    simp only [cmdRollbackLast]
    rw [rollbackLast_noBackup _ h']
    rfl
  · intro e
    simp [processExitCode]

/-- Witness for the exit-code theorem at concrete inputs: a fresh store
migrated (exit 0), a backup-less store rolled back (exit 2), and an escaped
exception (exit 1). -/
theorem maintenance_exit_codes_witness :
    (cmdMigrateOnly stepsWit 2 st0).1 = 0
    ∧ (cmdRollbackLast stNoBackup).1 = 2
    ∧ processExitCode (.error "disk error") ≠ 0 :=
  ⟨maintenance_exit_codes.1 stepsWit 2 st0,
   maintenance_exit_codes.2.1 stNoBackup (Or.inr ⟨_, rfl, rfl⟩),
   maintenance_exit_codes.2.2 "disk error"⟩

end ProjectDBModel
